import Mathlib

/-!
# A shallow embedding of the `rust-btf` BTF decoder and binding emitter

This file embeds, in Lean 4, the parts of the `rust-btf` crate that the
verified properties talk about:

* the wire layer of `src/file.rs` (header parsing, endian-parameterized
  primitive reads, bit-packed `Info` decoding, string-table lookup,
  per-kind raw records),
* the type stream of `src/ty.rs` (`read_type` and the decoded `Type` sum),
* the binding emitter helpers of `src/rust.rs` (`Types::get_type`,
  `Namespace::get_unique_name`, the enum duplicate-value loop).

Modelling conventions:

* Byte buffers (`&[u8]`) are `List Nat`; every byte read applies `% 256`,
  reflecting the `u8` element type of the source buffers.
* Machine integers are `Nat` (or `Int` for `i32`); `u32` arithmetic that can
  wrap in the source is modelled explicitly with `% 2 ^ 32`
  (release-profile two's-complement wrapping semantics).
* Fallible source code returning `Result<_, Error>` is embedded as
  `Except Error _`.
* Code whose Rust semantics has no defined result — an `unsafe` integer to
  enum `mem::transmute` at an invalid discriminant, or a `panic!`
  (`expect` / `expect_err`) — is embedded in `Option` with `none` standing
  for "no defined result".  `DRes` combines the two layers.
-/

/-- The error enumeration of `src/error.rs` (payloads of `&'static str`
become `String`; the `core::str::Utf8Error` payload carries no data we
need). -/
inductive Error where
  | EndOfInput
  | Incomplete (tag : String)
  | Malformed (tag : String)
  | OutOfRange (tag : String) (n : Nat)
  | Unexpected (tag : String)
  | Expected (tag : String)
  | FmtError
  | Utf8Error
deriving DecidableEq

deriving instance DecidableEq for Except

/-- Result of code that may raise an `Error` but may also have no defined
result at all (undefined behavior of an invalid `transmute`, or a panic):
`none` means "no defined result". -/
abbrev DRes (α : Type) := Option (Except Error α)

/-- Embed an ordinary fallible computation into `DRes`. -/
def dlift {α : Type} (x : Except Error α) : DRes α := some x

/-- The undefined outcome (invalid `transmute` / panic). -/
def dundef {α : Type} : DRes α := none

def dbind {α β : Type} (x : DRes α) (f : α → DRes β) : DRes β :=
  match x with
  | none => none
  | some (Except.error e) => some (Except.error e)
  | some (Except.ok a) => f a

instance : Monad DRes where
  pure a := some (Except.ok a)
  bind := dbind

/-! ## Wire-layer primitives

`untrusted::Reader` is a cursor over a byte slice; we model it as the list
of bytes not yet consumed.  `read_bytes` / `read_byte` fail with
`untrusted::EndOfInput`, which the crate converts to `Error::EndOfInput`. -/

abbrev Reader := List Nat

/-- `Reader::read_byte`; the buffer element type is `u8`, hence `% 256`. -/
def readByte (r : Reader) : Except Error (Nat × Reader) :=
  match r with
  | [] => .error .EndOfInput
  | b :: rest => .ok (b % 256, rest)

/-- `Reader::read_bytes(n)`: consume exactly `n` bytes. -/
def readBytes (n : Nat) (r : Reader) : Except Error (List Nat × Reader) :=
  if n ≤ r.length then .ok (r.take n, r.drop n) else .error .EndOfInput

/-- `Reader::skip(n)`. -/
def skipBytes (n : Nat) (r : Reader) : Except Error Reader :=
  (readBytes n r).map (·.2)

/-- `byteorder`-style `read_u16` with an endianness flag (`true` =
little-endian). -/
def readU16 (le : Bool) (r : Reader) : Except Error (Nat × Reader) := do
  let (b0, r) ← readByte r
  let (b1, r) ← readByte r
  .ok (if le then b0 + 256 * b1 else b1 + 256 * b0, r)

/-- `byteorder`-style `read_u32`. -/
def readU32 (le : Bool) (r : Reader) : Except Error (Nat × Reader) := do
  let (b0, r) ← readByte r
  let (b1, r) ← readByte r
  let (b2, r) ← readByte r
  let (b3, r) ← readByte r
  .ok (if le then b0 + 256 * (b1 + 256 * (b2 + 256 * b3))
       else b3 + 256 * (b2 + 256 * (b1 + 256 * b0)), r)

/-- Wrapping `u32` subtraction `a - b` (`a`, `b` are `u32` values):
two's-complement wrap-around on underflow, as in a release build. -/
def wsub32 (a b : Nat) : Nat := (a % 2 ^ 32 + (2 ^ 32 - b % 2 ^ 32)) % 2 ^ 32

/-! ## UTF-8 (`core::str::from_utf8`)

A decoded `&str` is represented as a Lean `String`.  The decoder below is
the standard UTF-8 acceptance automaton: it rejects continuation-byte
errors, overlong encodings, surrogate code points and values above
`0x10FFFF`, exactly as `core::str::from_utf8` does. -/

def utf8DecodeChars : List Nat → Option (List Char)
  | [] => some []
  | b :: rest =>
    if b < 0x80 then
      (utf8DecodeChars rest).map (Char.ofNat b :: ·)
    else if b < 0xC2 then
      none
    else if b < 0xE0 then
      match rest with
      | c1 :: rest2 =>
        if 0x80 ≤ c1 ∧ c1 < 0xC0 then
          (utf8DecodeChars rest2).map (Char.ofNat ((b - 0xC0) * 64 + (c1 - 0x80)) :: ·)
        else none
      | [] => none
    else if b < 0xF0 then
      match rest with
      | c1 :: c2 :: rest2 =>
        let lo1 := if b = 0xE0 then 0xA0 else 0x80
        let hi1 := if b = 0xED then 0xA0 else 0xC0
        if (lo1 ≤ c1 ∧ c1 < hi1) ∧ (0x80 ≤ c2 ∧ c2 < 0xC0) then
          (utf8DecodeChars rest2).map
            (Char.ofNat ((b - 0xE0) * 4096 + (c1 - 0x80) * 64 + (c2 - 0x80)) :: ·)
        else none
      | _ => none
    else if b < 0xF5 then
      match rest with
      | c1 :: c2 :: c3 :: rest2 =>
        let lo1 := if b = 0xF0 then 0x90 else 0x80
        let hi1 := if b = 0xF4 then 0x90 else 0xC0
        if (lo1 ≤ c1 ∧ c1 < hi1) ∧ (0x80 ≤ c2 ∧ c2 < 0xC0) ∧ (0x80 ≤ c3 ∧ c3 < 0xC0) then
          (utf8DecodeChars rest2).map
            (Char.ofNat ((b - 0xF0) * 262144 + (c1 - 0x80) * 4096 +
              (c2 - 0x80) * 64 + (c3 - 0x80)) :: ·)
        else none
      | _ => none
    else none

/-- Model of `core::str::from_utf8` composed with the borrow of the result:
`some` exactly on valid UTF-8. -/
def utf8Decode (l : List Nat) : Option String :=
  (utf8DecodeChars l).map fun cs => ⟨cs⟩

/-- `file::read_str(strs, off)` (src/file.rs): `None` at offset 0, else
slice from `off` (`<[u8]>::get`, `None` when `off` exceeds the length),
take the first NUL-separated chunk, UTF-8 validate. -/
def read_str (strs : List Nat) (off : Nat) : Except Error (Option String) :=
  if off = 0 then
    .ok none
  else
    match (if off ≤ strs.length then some (strs.drop off) else none) with
    | none => .ok none
    | some tail =>
      match utf8Decode (tail.takeWhile (· ≠ 0)) with
      | some s => .ok (some s)
      | none => .error .Utf8Error

/-! ## Header and file carving (src/file.rs) -/

/-- `file::Header` (all fields are wire integers; offsets are relative to
the end of the header). -/
structure Header where
  magic : Nat
  version : Nat
  flags : Nat
  len : Nat
  type_off : Nat
  type_len : Nat
  str_off : Nat
  str_len : Nat
deriving DecidableEq

/-- `Header::read::<O>`: the magic is always read little-endian (it was
already used to pick `O`); `len.checked_sub(size_of::<Header>() = 24)`
skips the excess of longer headers and tolerates shorter `len` values. -/
def Header.read (le : Bool) (r : Reader) : Except Error (Header × Reader) := do
  let (magic, r) ← readU16 true r
  let (version, r) ← readByte r
  let (flags, r) ← readByte r
  let (len, r) ← readU32 le r
  let (type_off, r) ← readU32 le r
  let (type_len, r) ← readU32 le r
  let (str_off, r) ← readU32 le r
  let (str_len, r) ← readU32 le r
  let hdr : Header := ⟨magic, version, flags, len, type_off, type_len, str_off, str_len⟩
  let r ← if 24 < len then skipBytes (len - 24) r else .ok r
  .ok (hdr, r)

/-- `file::File`: the carved-out type and string sections. -/
structure BtfFile where
  header : Header
  types : List Nat
  strs : List Nat
deriving DecidableEq

/-- `File::read::<O>` (src/file.rs lines 650-672).  The padding skip is the
source's `r.skip((str_off - type_off - type_len) as usize)`, a `u32`
subtraction with no underflow check: it is modelled with the wrapping
`wsub32` (left-associated, as written). `skip_to_end` consumes the rest. -/
def BtfFile.read (le : Bool) (r : Reader) : Except Error (BtfFile × Reader) :=
  match Header.read le r with
  | .error e => .error e
  | .ok (header, r) =>
    match skipBytes header.type_off r with
    | .error e => .error e
    | .ok r =>
      match readBytes header.type_len r with
      | .error e => .error e
      | .ok (types, r) =>
        match skipBytes (wsub32 (wsub32 header.str_off header.type_off) header.type_len) r with
        | .error e => .error e
        | .ok r =>
          match readBytes header.str_len r with
          | .error e => .error e
          | .ok (strs, _r) => .ok (⟨header, types, strs⟩, [])

/-- `untrusted::Input::read_all(e, f)`: run `f` from the start and require
the reader to be exhausted. -/
def readAll {α : Type} (e : Error) (f : Reader → Except Error (α × Reader))
    (input : List Nat) : Except Error α :=
  match f input with
  | .error err => .error err
  | .ok (a, rest) => if rest.isEmpty then .ok a else .error e

/-- `file::parse` (src/file.rs lines 674-680): peek the first two bytes to
select the byte order. -/
def parse (input : List Nat) : Except Error BtfFile :=
  match input with
  | 0x9f :: 0xeb :: _ => readAll .EndOfInput (BtfFile.read true) input
  | 0xeb :: 0x9f :: _ => readAll .EndOfInput (BtfFile.read false) input
  | _ => .error (.Malformed "invalid magic")

/-! ## Bit-packed `Info` and `Kind` (src/file.rs) -/

/-- `file::Kind`, `#[repr(u8)]` with discriminants 0..=19. -/
inductive Kind where
  | Unknown | Integer | Pointer | Array | Struct | Union | Enum | Forward
  | Typedef | Volatile | Const | Restrict | Func | FuncProto | Variable
  | DataSection | Float | DeclTag | TypeTag | Enum64
deriving DecidableEq

/-- The `unsafe { mem::transmute::<u8, Kind>(v) }` in `Info::kind`: it has
a defined result only at the declared discriminants 0..=19; any other
value is undefined behavior, modelled as `none`. -/
def Kind.ofNat? : Nat → Option Kind
  | 0 => some .Unknown
  | 1 => some .Integer
  | 2 => some .Pointer
  | 3 => some .Array
  | 4 => some .Struct
  | 5 => some .Union
  | 6 => some .Enum
  | 7 => some .Forward
  | 8 => some .Typedef
  | 9 => some .Volatile
  | 10 => some .Const
  | 11 => some .Restrict
  | 12 => some .Func
  | 13 => some .FuncProto
  | 14 => some .Variable
  | 15 => some .DataSection
  | 16 => some .Float
  | 17 => some .DeclTag
  | 18 => some .TypeTag
  | 19 => some .Enum64
  | _ => none

/-- `file::Info`, the packed `u32` info word. -/
structure Info where
  val : Nat
deriving DecidableEq

/-- `Info::vlen`: `info & 0x0000_ffff`. -/
def Info.vlen (i : Info) : Nat := i.val &&& 0xffff

/-- The masked and shifted kind bits of `Info::kind`:
`(info & 0x1f00_0000) >> 24` — note the mask keeps **five** bits, so the
raw kind ranges over 0..=31. -/
def Info.kindRaw (i : Info) : Nat := (i.val &&& 0x1f000000) >>> 24

/-- `Info::kind` (src/file.rs lines 166-168): an unchecked transmute of the
five masked bits, defined only when they are ≤ 19. -/
def Info.kind? (i : Info) : Option Kind := Kind.ofNat? i.kindRaw

/-- `Info::kflag`: `(info & 0x8000_0000) != 0`. -/
def Info.kflag (i : Info) : Bool := i.val &&& 0x80000000 ≠ 0

/-! ## Raw per-kind wire records (src/file.rs) -/

/-- `file::Type`, the 12-byte entry header. -/
structure RawType where
  name_off : Nat
  info : Info
  size_or_type : Nat
deriving DecidableEq

def RawType.size (t : RawType) : Nat := t.size_or_type

def RawType.type_id (t : RawType) : Nat := t.size_or_type

def RawType.read (le : Bool) (r : Reader) : Except Error (RawType × Reader) := do
  let (name_off, r) ← readU32 le r
  let (info, r) ← readU32 le r
  let (size_or_type, r) ← readU32 le r
  .ok (⟨name_off, ⟨info⟩, size_or_type⟩, r)

/-- `file::Int`, the packed `u32` that follows an INT entry. -/
structure RawInt where
  val : Nat
deriving DecidableEq

/-- `Int::offset`: `(v & 0x00ff_0000) >> 16`. -/
def RawInt.offset (i : RawInt) : Nat := (i.val &&& 0xff0000) >>> 16

/-- `Int::bits`: `v & 0x0000_00ff`. -/
def RawInt.bits (i : RawInt) : Nat := i.val &&& 0xff

/-- `Int::encoding`: `IntEncoding::from_bits_truncate((v & 0x0f00_0000) >> 24)`;
`from_bits_truncate` keeps only the defined flag bits `SIGNED|CHAR|BOOL = 0b111`. -/
def RawInt.encoding (i : RawInt) : Nat := ((i.val &&& 0x0f000000) >>> 24) &&& 0b111

def RawInt.read (le : Bool) (r : Reader) : Except Error (RawInt × Reader) := do
  let (v, r) ← readU32 le r
  .ok (⟨v⟩, r)

/-- `IntEncoding::is_bool` etc. on the modelled flag bits. -/
def IntEncoding.is_signed (e : Nat) : Bool := e &&& 1 ≠ 0

def IntEncoding.is_char (e : Nat) : Bool := e &&& 2 ≠ 0

def IntEncoding.is_bool (e : Nat) : Bool := e &&& 4 ≠ 0

/-- `file::Array` trailing record. -/
structure RawArray where
  ty : Nat
  index_ty : Nat
  nelems : Nat
deriving DecidableEq

def RawArray.read (le : Bool) (r : Reader) : Except Error (RawArray × Reader) := do
  let (ty, r) ← readU32 le r
  let (index_ty, r) ← readU32 le r
  let (nelems, r) ← readU32 le r
  .ok (⟨ty, index_ty, nelems⟩, r)

/-- `file::Member` trailing record of STRUCT/UNION. -/
structure RawMember where
  name_off : Nat
  ty : Nat
  offset : Nat
deriving DecidableEq

/-- `Member::bitfield_size`: `offset >> 24`. -/
def RawMember.bitfield_size (m : RawMember) : Nat := m.offset >>> 24

/-- `Member::bit_offset`: `offset & 0x00ff_ffff`. -/
def RawMember.bit_offset (m : RawMember) : Nat := m.offset &&& 0xffffff

def RawMember.read (le : Bool) (r : Reader) : Except Error (RawMember × Reader) := do
  let (name_off, r) ← readU32 le r
  let (ty, r) ← readU32 le r
  let (offset, r) ← readU32 le r
  .ok (⟨name_off, ty, offset⟩, r)

/-- `file::Enum` trailing record (32-bit variant value, read as `u32`). -/
structure RawEnum where
  name_off : Nat
  val : Nat
deriving DecidableEq

def RawEnum.read (le : Bool) (r : Reader) : Except Error (RawEnum × Reader) := do
  let (name_off, r) ← readU32 le r
  let (val, r) ← readU32 le r
  .ok (⟨name_off, val⟩, r)

/-- `file::Enum64` trailing record. -/
structure RawEnum64 where
  name_off : Nat
  val_lo32 : Nat
  val_hi32 : Nat
deriving DecidableEq

def RawEnum64.read (le : Bool) (r : Reader) : Except Error (RawEnum64 × Reader) := do
  let (name_off, r) ← readU32 le r
  let (val_lo32, r) ← readU32 le r
  let (val_hi32, r) ← readU32 le r
  .ok (⟨name_off, val_lo32, val_hi32⟩, r)

/-- `file::Param` trailing record of FUNC_PROTO. -/
structure RawParam where
  name_off : Nat
  ty : Nat
deriving DecidableEq

/-- `file::Param::is_variable_argument` (src/file.rs lines 544-548) — note
the source tests `name_off == 0 || ty == 0`, a disjunction. -/
def RawParam.is_variable_argument (p : RawParam) : Bool :=
  p.name_off == 0 || p.ty == 0

def RawParam.read (le : Bool) (r : Reader) : Except Error (RawParam × Reader) := do
  let (name_off, r) ← readU32 le r
  let (ty, r) ← readU32 le r
  .ok (⟨name_off, ty⟩, r)

/-- `file::Linkage`, `#[repr(u32)]` with discriminants 0..=2. -/
inductive Linkage where
  | Static
  | Global
  | Extern
deriving DecidableEq

/-- `impl From<u32> for Linkage` (src/file.rs lines 600-604): an unchecked
`unsafe { mem::transmute(v) }` with no range check and no error branch;
it has a defined result only at the declared discriminants 0, 1, 2. -/
def Linkage.from? : Nat → Option Linkage
  | 0 => some .Static
  | 1 => some .Global
  | 2 => some .Extern
  | _ => none

/-- `file::Var::read` (src/file.rs lines 567-575): one `u32` word fed
through the unchecked `Linkage::from`. -/
def Var.read (le : Bool) (r : Reader) : DRes (Linkage × Reader) := do
  let (w, r) ← dlift (readU32 le r)
  match Linkage.from? w with
  | some lk => pure (lk, r)
  | none => dundef

/-- `file::VarSectInfo` trailing record of DATASEC. -/
structure VarSectInfo where
  type_id : Nat
  offset : Nat
  size : Nat
deriving DecidableEq

def VarSectInfo.read (le : Bool) (r : Reader) : Except Error (VarSectInfo × Reader) := do
  let (type_id, r) ← readU32 le r
  let (offset, r) ← readU32 le r
  let (size, r) ← readU32 le r
  .ok (⟨type_id, offset, size⟩, r)

/-- `file::DeclTag` trailing record: one `i32`, two's complement. -/
structure RawDeclTag where
  component_idx : Int
deriving DecidableEq

def RawDeclTag.read (le : Bool) (r : Reader) : Except Error (RawDeclTag × Reader) := do
  let (w, r) ← readU32 le r
  .ok (⟨if w < 2 ^ 31 then (w : Int) else (w : Int) - 2 ^ 32⟩, r)

/-! ## Decoded entries (src/ty.rs) -/

/-- `ty::Member`. -/
structure TyMember where
  name : Option String
  type_id : Nat
  bits_offset : Nat
  bitfield_size : Nat
deriving DecidableEq

/-- `ty::Enum` (a decoded enum variant; `val` is the `u64` value). -/
structure TyEnumVal where
  name : Option String
  val : Nat
deriving DecidableEq

/-- `ty::Param`. -/
structure TyParam where
  name : Option String
  type_id : Nat
deriving DecidableEq

/-- `ty::Param::is_variable_argument` (src/ty.rs lines 166-168): both the
name must be absent and the type id zero — a conjunction. -/
def TyParam.is_variable_argument (p : TyParam) : Bool :=
  p.name.isNone && p.type_id == 0

/-- `ty::Param::has_variable_argument`: `params.last().map_or(false, ...)`. -/
def TyParam.has_variable_argument (params : List TyParam) : Bool :=
  (params.getLast?.map TyParam.is_variable_argument).getD false

/-- `ty::Type`, the decoded tagged sum (named `Ty` here because `Type` is a
Lean built-in).  The `Enum64` wire kind also decodes to `.Enum`
(src/ty.rs line 302). -/
inductive Ty where
  | Void
  | Int (name : String) (size : Nat) (bits_offset : Nat) (nr_bits : Nat) (encoding : Nat)
  | Ptr (type_id : Nat)
  | Array (type_id : Nat) (index_type_id : Nat) (nr_elems : Nat)
  | Struct (name : Option String) (size : Nat) (members : List TyMember)
  | Union (name : Option String) (size : Nat) (members : List TyMember)
  | Enum (name : Option String) (size : Nat) (values : List TyEnumVal)
  | Fwd (name : String) (fwd_kind : Kind)
  | Typedef (name : String) (type_id : Nat)
  | Volatile (type_id : Nat)
  | Const (type_id : Nat)
  | Restrict (type_id : Nat)
  | Func (name : String) (type_id : Nat) (linkage : Linkage)
  | FuncProto (ret_type_id : Nat) (params : List TyParam)
  | Variable (name : String) (type_id : Nat) (linkage : Linkage)
  | DataSec (name : String) (size : Nat) (sections : List VarSectInfo)
  | Float (name : String) (size : Nat)
  | DeclTag (name : String) (type_id : Nat) (component_idx : Int)
  | TypeTag (name : String) (type_id : Nat)
deriving DecidableEq

/-- `ty::Type::name` (src/ty.rs lines 107-129). -/
def Ty.name : Ty → Option String
  | .Void => none
  | .Int name .. => some name
  | .Ptr _ => none
  | .Array .. => none
  | .Struct name .. => name
  | .Union name .. => name
  | .Enum name .. => name
  | .Fwd name _ => some name
  | .Typedef name _ => some name
  | .Volatile _ => none
  | .Const _ => none
  | .Restrict _ => none
  | .Func name .. => some name
  | .FuncProto .. => none
  | .Variable name .. => some name
  | .DataSec name .. => some name
  | .Float name _ => some name
  | .DeclTag name .. => some name
  | .TypeTag name _ => some name

/-- `Option::ok_or` as used on decoded names. -/
def nameOr (name : Option String) (tag : String) : Except Error String :=
  match name with
  | some s => .ok s
  | none => .error (.Expected tag)

/-- The member-decoding closure of `read_type`'s STRUCT/UNION branches
(src/ty.rs lines 242-259): read a raw member, resolve its name, then split
the offset word according to the composite's `kind_flag`. -/
def memberOfRaw (strs : List Nat) (kflag : Bool) (m : RawMember) : Except Error TyMember := do
  let name ← read_str strs m.name_off
  if kflag then
    .ok ⟨name, m.ty, m.bit_offset, m.bitfield_size⟩
  else
    .ok ⟨name, m.ty, m.offset, 0⟩

/-- The value-decoding closure of `read_type`'s ENUM branch (src/ty.rs
lines 292-299): `val: v.val as u64`, a zero-extension of the raw `u32`. -/
def enumValOfRaw (strs : List Nat) (v : RawEnum) : Except Error TyEnumVal := do
  let name ← read_str strs v.name_off
  .ok ⟨name, v.val⟩

/-- The value-decoding closure of `read_type`'s ENUM64 branch (src/ty.rs
lines 306-313): `val: ((hi as u64) << 32) + (lo as u64)`. -/
def enum64ValOfRaw (strs : List Nat) (v : RawEnum64) : Except Error TyEnumVal := do
  let name ← read_str strs v.name_off
  .ok ⟨name, (v.val_hi32 <<< 32) + v.val_lo32⟩

/-- The param-decoding closure of `read_type`'s FUNC_PROTO branch
(src/ty.rs lines 346-351). -/
def paramOfRaw (strs : List Nat) (p : RawParam) : Except Error TyParam := do
  let name ← read_str strs p.name_off
  .ok ⟨name, p.ty⟩

/-- `(0..vlen).map(|_| ...).collect::<Result<Vec<_>, _>>()`: run a reader
action `n` times, collecting results in order. -/
def readN {α : Type} (n : Nat) (f : Reader → Except Error (α × Reader)) (r : Reader) :
    Except Error (List α × Reader) :=
  match n with
  | 0 => .ok ([], r)
  | n + 1 => do
    let (a, r) ← f r
    let (rest, r) ← readN n f r
    .ok (a :: rest, r)

/-- `ty::read_type::<O>` (src/ty.rs lines 205-381).  The branch order and
the evaluation order of each variant's fields follow the source: a missing
required name (`ok_or`) is raised before later payload reads of the same
struct expression; the `Kind` transmute and the `Linkage` transmutes are
the only undefined-behavior points. -/
def read_type (le : Bool) (strs : List Nat) (r : Reader) : DRes (Ty × Reader) := do
  let (ty, r) ← dlift (RawType.read le r)
  let name ← dlift (read_str strs ty.name_off)
  match ty.info.kind? with
  | none => dundef
  | some Kind.Unknown => pure (.Void, r)
  | some Kind.Integer => do
    let (int, r) ← dlift (RawInt.read le r)
    let nm ← dlift (nameOr name "int name")
    pure (.Int nm ty.size int.offset int.bits int.encoding, r)
  | some Kind.Pointer => pure (.Ptr ty.type_id, r)
  | some Kind.Array => do
    let (a, r) ← dlift (RawArray.read le r)
    pure (.Array a.ty a.index_ty a.nelems, r)
  | some Kind.Struct => do
    let (members, r) ← dlift (readN ty.info.vlen
      (fun r => do
        let (m, r) ← RawMember.read le r
        let dm ← memberOfRaw strs ty.info.kflag m
        .ok (dm, r)) r)
    pure (.Struct name ty.size members, r)
  | some Kind.Union => do
    let (members, r) ← dlift (readN ty.info.vlen
      (fun r => do
        let (m, r) ← RawMember.read le r
        let dm ← memberOfRaw strs ty.info.kflag m
        .ok (dm, r)) r)
    pure (.Union name ty.size members, r)
  | some Kind.Enum => do
    let (values, r) ← dlift (readN ty.info.vlen
      (fun r => do
        let (v, r) ← RawEnum.read le r
        let dv ← enumValOfRaw strs v
        .ok (dv, r)) r)
    pure (.Enum name ty.size values, r)
  | some Kind.Enum64 => do
    let (values, r) ← dlift (readN ty.info.vlen
      (fun r => do
        let (v, r) ← RawEnum64.read le r
        let dv ← enum64ValOfRaw strs v
        .ok (dv, r)) r)
    pure (.Enum name ty.size values, r)
  | some Kind.Forward => do
    let nm ← dlift (nameOr name "forward name")
    pure (.Fwd nm (if ty.info.kflag then Kind.Union else Kind.Struct), r)
  | some Kind.Typedef => do
    let nm ← dlift (nameOr name "typedef name")
    pure (.Typedef nm ty.type_id, r)
  | some Kind.Volatile => pure (.Volatile ty.type_id, r)
  | some Kind.Const => pure (.Const ty.type_id, r)
  | some Kind.Restrict => pure (.Restrict ty.type_id, r)
  | some Kind.Func => do
    let nm ← dlift (nameOr name "func name")
    match Linkage.from? ty.info.vlen with
    | some lk => pure (.Func nm ty.type_id lk, r)
    | none => dundef
  | some Kind.FuncProto => do
    let (params, r) ← dlift (readN ty.info.vlen
      (fun r => do
        let (p, r) ← RawParam.read le r
        let dp ← paramOfRaw strs p
        .ok (dp, r)) r)
    pure (.FuncProto ty.type_id params, r)
  | some Kind.Variable => do
    let nm ← dlift (nameOr name "var name")
    let (lk, r) ← Var.read le r
    pure (.Variable nm ty.type_id lk, r)
  | some Kind.DataSection => do
    let nm ← dlift (nameOr name "datasec name")
    let (sections, r) ← dlift (readN ty.info.vlen (VarSectInfo.read le) r)
    pure (.DataSec nm ty.size sections, r)
  | some Kind.Float => do
    let nm ← dlift (nameOr name "float name")
    pure (.Float nm ty.size, r)
  | some Kind.DeclTag => do
    let nm ← dlift (nameOr name "decl_tag name")
    let (dt, r) ← dlift (RawDeclTag.read le r)
    pure (.DeclTag nm ty.type_id dt.component_idx, r)
  | some Kind.TypeTag => do
    let nm ← dlift (nameOr name "type_tag name")
    pure (.TypeTag nm ty.type_id, r)

/-! ## Binding emitter helpers (src/rust.rs) -/

/-- The keyword list behind `check_keyword::CheckKeyword::is_keyword`:
Rust's strict (2015 + 2018) and reserved keywords. -/
def rustKeywords : List String :=
  ["as", "break", "const", "continue", "crate", "else", "enum", "extern",
   "false", "fn", "for", "if", "impl", "in", "let", "loop", "match", "mod",
   "move", "mut", "pub", "ref", "return", "self", "Self", "static", "struct",
   "super", "trait", "true", "type", "unsafe", "use", "where", "while",
   "async", "await", "dyn", "abstract", "become", "box", "do", "final",
   "macro", "override", "priv", "typeof", "unsized", "virtual", "yield", "try"]

/-- `EscapeKeyword::escape_keyword` (src/rust.rs lines 26-34). -/
def escapeKeyword (s : String) : String :=
  if rustKeywords.contains s then "_" ++ s else s

/-- `rust::anon_type_name` (src/rust.rs lines 320-322). -/
def anon_type_name (ty : String) (id : Nat) : String :=
  "_anon_" ++ ty ++ "_" ++ toString id

/-- `rust::Namespace` (src/rust.rs lines 560-564): `names` is kept sorted;
`name_by_id` is a `Vec<String>` that `get_unique_name` *pushes* to and
`get_name` indexes at `type_id - 1`. -/
structure Namespace where
  names : List String
  name_by_id : List String
deriving DecidableEq

/-- `(type_id - 1) as usize` on a `u32` id: wrapping subtraction. -/
def idIndex (type_id : Nat) : Nat := wsub32 type_id 1

/-- `Namespace::get_name` (src/rust.rs lines 567-571). -/
def Namespace.get_name (ns : Namespace) (type_id : Nat) : Option String :=
  ns.name_by_id.get? (idIndex type_id)

/-- Lexicographic order on code points, evaluable in the kernel.  For the
valid-UTF-8 strings that reach the namespace this coincides with Rust's
`String: Ord` (byte-lexicographic order on the UTF-8 encoding, which is
code-point order). -/
def charListLt : List Char → List Char → Bool
  | [], [] => false
  | [], _ :: _ => true
  | _ :: _, [] => false
  | a :: as, b :: bs =>
    if a.toNat < b.toNat then true
    else if b.toNat < a.toNat then false
    else charListLt as bs

def strLt (a b : String) : Bool := charListLt a.data b.data

/-- The insertion point `Vec::binary_search` reports (as `Err(idx)`) for a
missing key in a sorted vector: the number of smaller elements. -/
def insertionPoint (l : List String) (x : String) : Nat :=
  (l.takeWhile (fun y => strLt y x)).length

/-- `Namespace::get_unique_name` (src/rust.rs lines 573-599).  The final
`self.names.get(idx).expect("name")` and the
`binary_search(&name).expect_err("name already exists")` panics are the
`none` outcomes. -/
def Namespace.get_unique_name (ns : Namespace) (name : String) (type_id : Nat) :
    Option (String × Namespace) :=
  match ns.name_by_id.get? (idIndex type_id) with
  | some s => some (s, ns)
  | none =>
    if ns.names.contains name then
      let name2 := name ++ "_" ++ toString type_id
      if ns.names.contains name2 then
        none
      else
        let idx := insertionPoint ns.names name2
        let names' := ns.names.insertIdx idx name2
        match names'.get? idx with
        | some s => some (s, ⟨names', ns.name_by_id ++ [s]⟩)
        | none => none
    else
      let idx := insertionPoint ns.names name
      let names' := ns.names.insertIdx idx name
      match names'.get? idx with
      | some s => some (s, ⟨names', ns.name_by_id ++ [s]⟩)
      | none => none

/-- `rust::Types` (src/rust.rs lines 602-610): the optional base entry
vector and the local entry vector of the emitter. -/
structure RsTypes where
  base : Option (List Ty)
  types : List Ty
deriving DecidableEq

/-- `rust::Types::get_type` (src/rust.rs lines 613-634).  `start_id` is
`base.len() + 1` (or 1); the lookup index is the `u32` subtraction
`type_id - start_id` in **both** branches, wrapping on underflow.  The
`base.expect("base")` cannot be reached with `base == none` because then
`start_id = 1 ≤ type_id`. -/
def RsTypes.get_type (ts : RsTypes) (type_id : Nat) : Except Error Ty :=
  if type_id = 0 then
    .ok .Void
  else
    let start_id := (ts.base.map List.length).getD 0 + 1
    let tys := if type_id < start_id then ts.base.getD [] else ts.types
    match tys.get? (wsub32 type_id start_id) with
    | some t => .ok t
    | none => .error (.OutOfRange "type_id" type_id)

/-! ### The enum duplicate-value loop (`EnumDecl::to_tokens`,
src/rust.rs lines 423-484) -/

/-- The name chosen for the variant at position `i`:
`v.name.map_or_else(|| Self::anon_type_name(i as u32), escape_keyword)`. -/
def enumVariantName (i : Nat) (v : TyEnumVal) : String :=
  match v.name with
  | some s => escapeKeyword s
  | none => anon_type_name "enum" i

/-- One emitted item of the enum body: either a real variant
`name = val`, or an associated constant `pub const name: Self = Self::alias`
diverted to the `impl` block. -/
inductive EnumItem where
  | variant (name : String) (val : Nat)
  | constant (name : String) (target : String)
deriving DecidableEq

/-- The loop body for position `i`: search the **earlier** values
(`self.values.iter().take(i).find(|e| e.val == v.val)`); on a hit emit an
associated constant aliasing that entry's (escaped) name — its
`e.name.expect("name")` panics on an anonymous entry (`none`) — otherwise
emit a variant. -/
def enumEntry (all : List TyEnumVal) (i : Nat) (v : TyEnumVal) : Option EnumItem :=
  match (all.take i).find? (fun e => e.val == v.val) with
  | some e => (e.name.map fun en => .constant (enumVariantName i v) (escapeKeyword en))
  | none => some (.variant (enumVariantName i v) v.val)

def enumItemsAux (all : List TyEnumVal) : Nat → List TyEnumVal → Option (List EnumItem)
  | _, [] => some []
  | i, v :: rest => do
    let item ← enumEntry all i v
    let items ← enumItemsAux all (i + 1) rest
    pure (item :: items)

/-- The enum declaration's two item lists, in emission order: the variant
list of the `enum` body, and the associated constants of the `impl` block
that follows the declaration (`impl_enum` is emitted exactly when `consts`
is non-empty). -/
structure EnumOut where
  variants : List (String × Nat)
  consts : List (String × String)
deriving DecidableEq

/-- The complete duplicate-value pass of `EnumDecl::to_tokens`. -/
def enumDecl (values : List TyEnumVal) : Option EnumOut :=
  (enumItemsAux values 0 values).map fun items =>
    ⟨items.filterMap (fun it => match it with
        | .variant n v => some (n, v)
        | .constant _ _ => none),
     items.filterMap (fun it => match it with
        | .variant _ _ => none
        | .constant n a => some (n, a))⟩

/-! ## Concrete inputs for the header-gap property -/

/-- A buffer whose header declares `type_off = 0`, `type_len = 8`,
`str_off = 4`, `str_len = 0` — a negative gap (`str_off < type_off +
type_len`) — followed by an 8-byte body. -/
def smallGapBuf : List Nat :=
  [0x9f, 0xeb, 1, 0, 24, 0, 0, 0, 0, 0, 0, 0, 8, 0, 0, 0, 4, 0, 0, 0,
   0, 0, 0, 0] ++ List.replicate 8 0

def smallGapHdr : Header := ⟨0xeb9f, 1, 0, 24, 0, 8, 4, 0⟩

/-- The 24 header bytes declaring `type_off = 5`, `type_len = 2^32 - 5`,
`str_off = 0`, `str_len = 0`: the gap `str_off - type_off - type_len`
is `-2^32`, which the wrapping `u32` subtraction turns into a skip of 0. -/
def bigWrapBytes : List Nat :=
  [0x9f, 0xeb, 1, 0, 24, 0, 0, 0, 5, 0, 0, 0, 0xfb, 0xff, 0xff, 0xff,
   0, 0, 0, 0, 0, 0, 0, 0]

def bigWrapHdr : Header := ⟨0xeb9f, 1, 0, 24, 5, 0xfffffffb, 0, 0⟩

/-- The header above followed by a `2^32`-byte body: 5 padding bytes and a
`2^32 - 5`-byte type section. -/
def bigWrapBuf : List Nat := bigWrapBytes ++ List.replicate (2 ^ 32) 0

/-! # Verified properties -/

/-- **C1** (code bug).  `Types::get_type` is supposed to resolve ids in
`[1, |base|]` into the base vector at `id - 1`, but it computes the index
as the `u32` subtraction `type_id - start_id` with `start_id = |base| + 1`
in *both* branches, which underflows for every base id.  Concretely, with
a base of length 100: `get_type(0)` is VOID, `get_type(150)` correctly
resolves into the local vector at index 49, but `get_type(42)` wraps the
index to `2^32 - 59` and returns `OutOfRange` instead of base index 41
(which here holds `Ptr 7`). -/
theorem c1_get_type_split_base_underflow :
    let ts : RsTypes := ⟨some (List.replicate 100 (Ty.Ptr 7)), List.replicate 50 (Ty.Ptr 1)⟩
    ts.get_type 0 = .ok .Void ∧
    ts.get_type 150 = .ok (Ty.Ptr 1) ∧
    ts.get_type 42 = .error (.OutOfRange "type_id" 42) ∧
    ts.get_type 42 ≠ .ok (Ty.Ptr 7) := by
  refine ⟨by decide, by decide, by decide, by decide⟩

/-- **C3** (code bug).  `Namespace::get_unique_name` records names by
*pushing* onto the `name_by_id` vector, while looking them up at index
`type_id - 1`; the two agree only when ids are allocated densely in
increasing order.  After allocating id 1 and then id 3 (which lands in
slot 1), a second call for id 3 misses slot 2 and allocates *again*,
returning `"c"` even though the first call for id 3 returned `"b"` — two
calls with the same id do **not** always return the same name. -/
theorem c3_get_unique_name_same_id_differs :
    Namespace.get_unique_name ⟨[], []⟩ "a" 1 = some ("a", ⟨["a"], ["a"]⟩) ∧
    Namespace.get_unique_name ⟨["a"], ["a"]⟩ "b" 3 = some ("b", ⟨["a", "b"], ["a", "b"]⟩) ∧
    Namespace.get_unique_name ⟨["a", "b"], ["a", "b"]⟩ "c" 3 =
      some ("c", ⟨["a", "b", "c"], ["a", "b", "c"]⟩) ∧
    ("c" : String) ≠ "b" := by
  refine ⟨by decide, by decide, by decide, by decide⟩

/-- **C4** (code bug).  The wire-level `file::Param::is_variable_argument`
tests `name_off == 0 || ty == 0` — a *disjunction* — so a raw param with
only one of the two fields zero is classified as the variadic sentinel,
contradicting the claim.  The decoded `ty::Param::is_variable_argument`
is the claimed conjunction, and on a FUNC_PROTO whose last param has
`name_off = 0` and `type_id = 0` the decoded `params.last()` test is
`true` (scenario S3). -/
theorem c4_is_variable_argument_eval :
    RawParam.is_variable_argument ⟨0, 5⟩ = true ∧
    RawParam.is_variable_argument ⟨5, 0⟩ = true ∧
    TyParam.is_variable_argument ⟨none, 5⟩ = false ∧
    TyParam.is_variable_argument ⟨some "x", 0⟩ = false ∧
    TyParam.is_variable_argument ⟨none, 0⟩ = true ∧
    TyParam.has_variable_argument [⟨some "a", 1⟩, ⟨some "b", 2⟩, ⟨none, 0⟩] = true := by
  refine ⟨by decide, by decide, by decide, by decide, by decide, by decide⟩

/-- **C5** (code bug).  `Info::kind` masks **five** bits
(`0x1f00_0000`) and feeds them to an unchecked `u8 → Kind` transmute, so
an info word whose kind bits are 20 (e.g. `0x1400_0000`, inside the mask
but outside the 0..=19 discriminants) has no defined result — undefined
behavior rather than `Kind::Unknown`.  For a genuine `Unknown` entry
(kind bits 0), `read_type` does yield VOID after consuming exactly the
12 header bytes and no trailing payload. -/
theorem c5_kind_transmute_undefined :
    Info.kindRaw ⟨0x14000000⟩ = 20 ∧
    Info.kind? ⟨0x14000000⟩ = none ∧
    Kind.ofNat? 20 = none ∧
    read_type true [] ([0, 0, 0, 0, 0, 0, 0, 0, 0, 0, 0, 0] ++ [9, 9, 9]) =
      some (.ok (Ty.Void, [9, 9, 9])) ∧
    read_type true [] [0, 0, 0, 0, 0, 0, 0, 0x14, 0, 0, 0, 0] = none := by
  refine ⟨by decide, by decide, by decide, by decide, by decide⟩

/-- **C10** (confirmed).  The `u32 → Linkage` conversion is an unchecked
transmute: defined exactly on 0 (`Static`), 1 (`Global`), 2 (`Extern`),
with no range check and no error branch — every other input yields no
defined result (`none`), never an `Error`.  FUNC entries feed the `vlen`
field through it (kind 12; vlen 2 gives `Extern`, vlen 3 is undefined),
VARIABLE entries feed the trailing payload word (kind 14; word 1 gives
`Global`, word 7 is undefined). -/
theorem c10_linkage_transmute_unchecked :
    (∀ v : Nat, Linkage.from? (v + 3) = none) ∧
    Linkage.from? 0 = some .Static ∧
    Linkage.from? 1 = some .Global ∧
    Linkage.from? 2 = some .Extern ∧
    read_type true [0, 102, 0] [1, 0, 0, 0, 2, 0, 0, 12, 7, 0, 0, 0] =
      some (.ok (Ty.Func "f" 7 .Extern, [])) ∧
    read_type true [0, 102, 0] [1, 0, 0, 0, 3, 0, 0, 12, 7, 0, 0, 0] = none ∧
    read_type true [0, 102, 0] [1, 0, 0, 0, 0, 0, 0, 14, 7, 0, 0, 0, 1, 0, 0, 0] =
      some (.ok (Ty.Variable "f" 7 .Global, [])) ∧
    read_type true [0, 102, 0] [1, 0, 0, 0, 0, 0, 0, 14, 7, 0, 0, 0, 7, 0, 0, 0] = none := by
  refine ⟨fun v => ?_, by decide, by decide, by decide, by decide, by decide, by decide, by decide⟩
  simp only [Linkage.from?]

/-! ### Helper lemmas for evaluating `parse` on large buffers -/

theorem readBytes_replicate (n m : Nat) (h : n ≤ m) :
    readBytes n (List.replicate m (0 : Nat)) =
      .ok (List.replicate n 0, List.replicate (m - n) 0) := by
  simp [readBytes, h, List.take_replicate, List.drop_replicate, Nat.min_eq_left h,
    List.length_replicate]

theorem skipBytes_replicate (n m : Nat) (h : n ≤ m) :
    skipBytes n (List.replicate m (0 : Nat)) = .ok (List.replicate (m - n) 0) := by
  simp [skipBytes, readBytes_replicate n m h, Except.map]

theorem readU16_le_eval (b0 b1 : Nat) (t : List Nat) :
    readU16 true (b0 :: b1 :: t) = .ok (b0 % 256 + 256 * (b1 % 256), t) := rfl

theorem readU32_le_eval (b0 b1 b2 b3 : Nat) (t : List Nat) :
    readU32 true (b0 :: b1 :: b2 :: b3 :: t) =
      .ok (b0 % 256 + 256 * (b1 % 256 + 256 * (b2 % 256 + 256 * (b3 % 256))), t) := rfl

theorem bigWrapHdr_read (t : List Nat) :
    Header.read true (bigWrapBytes ++ t) = .ok (bigWrapHdr, t) := by
  rw [Header.read, bigWrapBytes]
  simp only [List.cons_append, List.nil_append, readU32_le_eval, readU16_le_eval, readByte,
    Bind.bind, Except.bind]
  norm_num [bigWrapHdr]

theorem btfFile_read_eval (le : Bool) (r r1 r2 r3 r4 r5 : Reader) (hd : Header)
    (types strs : List Nat)
    (h0 : Header.read le r = .ok (hd, r1))
    (h1 : skipBytes hd.type_off r1 = .ok r2)
    (h2 : readBytes hd.type_len r2 = .ok (types, r3))
    (h3 : skipBytes (wsub32 (wsub32 hd.str_off hd.type_off) hd.type_len) r3 = .ok r4)
    (h4 : readBytes hd.str_len r4 = .ok (strs, r5)) :
    BtfFile.read le r = .ok (⟨hd, types, strs⟩, []) := by
  rw [BtfFile.read]
  simp only [h0, h1, h2, h3, h4]

theorem readAll_eval {α : Type} (e : Error) (f : Reader → Except Error (α × Reader))
    (input : List Nat) (a : α) (h : f input = .ok (a, [])) :
    readAll e f input = .ok a := by
  rw [readAll, h]
  rfl

theorem parse_le_readAll (t : List Nat) :
    parse (0x9f :: 0xeb :: t) = readAll .EndOfInput (BtfFile.read true) (0x9f :: 0xeb :: t) := rfl

theorem bigWrapBuf_file_read :
    BtfFile.read true (bigWrapBytes ++ List.replicate (2 ^ 32) 0) =
      .ok (⟨bigWrapHdr, List.replicate (2 ^ 32 - 5) 0, []⟩, []) := by
  refine btfFile_read_eval true _ (List.replicate (2 ^ 32) 0)
    (List.replicate (2 ^ 32 - 5) 0) [] [] [] bigWrapHdr (List.replicate (2 ^ 32 - 5) 0) []
    (bigWrapHdr_read _) ?_ ?_ ?_ ?_
  · exact skipBytes_replicate 5 (2 ^ 32) (by norm_num)
  · have h := readBytes_replicate (2 ^ 32 - 5) (2 ^ 32 - 5) le_rfl
    rw [Nat.sub_self, List.replicate_zero] at h
    exact h
  · rfl
  · rfl

/-- **C6** (code bug).  `File::read` never validates the gap between the
type and string sections: the skip amount is the unchecked wrapping `u32`
subtraction `str_off - type_off - type_len`.  On a typical negative gap
(here `type_off = 0`, `type_len = 8`, `str_off = 4`) the wrapped skip is
huge and `parse` fails with `EndOfInput` — not with a `Malformed` error.
Worse, when the negative gap is exactly `-2^32` (`type_off = 5`,
`type_len = 2^32 - 5`, `str_off = 0`) the subtraction wraps to 0 and
`parse` *succeeds*, so a successfully parsed file need not satisfy
`type_off + type_len ≤ str_off`. -/
theorem c6_parse_negative_gap_eval :
    (Header.read true smallGapBuf = .ok (smallGapHdr, List.replicate 8 0) ∧
     smallGapHdr.str_off < smallGapHdr.type_off + smallGapHdr.type_len ∧
     parse smallGapBuf = .error .EndOfInput) ∧
    (bigWrapHdr.str_off < bigWrapHdr.type_off + bigWrapHdr.type_len ∧
     parse bigWrapBuf = .ok ⟨bigWrapHdr, List.replicate (2 ^ 32 - 5) 0, []⟩) := by
  refine ⟨⟨by decide, by decide, by decide⟩, by decide, ?_⟩
  have e : bigWrapBuf = 0x9f :: 0xeb ::
      ([1, 0, 24, 0, 0, 0, 5, 0, 0, 0, 0xfb, 0xff, 0xff, 0xff,
        0, 0, 0, 0, 0, 0, 0, 0] ++ List.replicate (2 ^ 32) 0) := rfl
  rw [e, parse_le_readAll]
  exact readAll_eval _ _ _ _ bigWrapBuf_file_read

/-- **C8** (confirmed).  For every decoded ENUM64 variant the 64-bit value
is exactly `(hi <<< 32) ||| lo` (the decoder computes `(hi <<< 32) + lo`,
which coincides because `lo` is a `u32`); for every decoded 32-bit ENUM
variant the raw `u32` is zero-extended — the decoded value *equals* the
raw word, with no sign-extension (`0xFFFFFFFF` stays `0xFFFFFFFF`). -/
theorem c8_enum_values_exact :
    (∀ (strs : List Nat) (v : RawEnum64) (dv : TyEnumVal), v.val_lo32 < 2 ^ 32 →
      enum64ValOfRaw strs v = .ok dv → dv.val = v.val_hi32 <<< 32 ||| v.val_lo32) ∧
    (∀ (strs : List Nat) (v : RawEnum) (dv : TyEnumVal),
      enumValOfRaw strs v = .ok dv → dv.val = v.val) ∧
    enum64ValOfRaw [] ⟨0, 0xdeadbeef, 0x12345678⟩ = .ok ⟨none, 0x12345678deadbeef⟩ ∧
    enumValOfRaw [] ⟨0, 0xffffffff⟩ = .ok ⟨none, 0xffffffff⟩ := by
  refine ⟨?_, ?_, by decide, by decide⟩
  · intro strs v dv hlo h
    cases hs : read_str strs v.name_off with
    | error e => simp [enum64ValOfRaw, hs, Bind.bind, Except.bind] at h
    | ok name =>
      simp only [enum64ValOfRaw, hs, Bind.bind, Except.bind, Except.ok.injEq] at h
      subst h
      have horr := Nat.mul_add_lt_is_or hlo v.val_hi32
      simpa [Nat.shiftLeft_eq, Nat.mul_comm] using horr
  · intro strs v dv h
    cases hs : read_str strs v.name_off with
    | error e => simp [enumValOfRaw, hs, Bind.bind, Except.bind] at h
    | ok name =>
      simp only [enumValOfRaw, hs, Bind.bind, Except.bind, Except.ok.injEq] at h
      subst h
      rfl

/-- Witness for C8 at the concrete ENUM64 record
`{name_off: 0, val_lo32: 0xdeadbeef, val_hi32: 0x12345678}`. -/
theorem c8_enum_values_exact_witness :
    (⟨none, 0x12345678deadbeef⟩ : TyEnumVal).val = 0x12345678 <<< 32 ||| 0xdeadbeef :=
  c8_enum_values_exact.1 [] ⟨0, 0xdeadbeef, 0x12345678⟩ ⟨none, 0x12345678deadbeef⟩
    (by decide) (by decide)

/-- **C7** (confirmed).  With `kind_flag` set, every decoded member splits
the raw 32-bit offset word as `bits_offset = offset & 0x00FF_FFFF` and
`bitfield_size = offset >> 24` (hence `bits_offset < 2^24`,
`bitfield_size < 256`); with `kind_flag` clear, `bits_offset` is the raw
word itself and `bitfield_size = 0`.  The concrete scenario S2: a
composite with `kind_flag = 1` whose member has raw offset word
`0x03_00_00_05` decodes to `bits_offset = 5`, `bitfield_size = 3`. -/
theorem c7_member_bitfield_split :
    (∀ (strs : List Nat) (m : RawMember) (dm : TyMember), m.offset < 2 ^ 32 →
      (memberOfRaw strs true m = .ok dm →
        dm.bits_offset = m.offset &&& 0xffffff ∧ dm.bitfield_size = m.offset >>> 24 ∧
        dm.bits_offset < 2 ^ 24 ∧ dm.bitfield_size < 256) ∧
      (memberOfRaw strs false m = .ok dm →
        dm.bits_offset = m.offset ∧ dm.bitfield_size = 0)) ∧
    read_type true [] [0, 0, 0, 0, 1, 0, 0, 0x84, 8, 0, 0, 0,
      0, 0, 0, 0, 1, 0, 0, 0, 5, 0, 0, 3] =
      some (.ok (Ty.Struct none 8 [⟨none, 1, 5, 3⟩], [])) := by
  refine ⟨?_, by decide⟩
  intro strs m dm hm
  have hmask : (0xffffff : Nat) = 2 ^ 24 - 1 := by norm_num
  constructor
  · intro h
    cases hs : read_str strs m.name_off with
    | error e => simp [memberOfRaw, hs, Bind.bind, Except.bind] at h
    | ok name =>
      simp only [memberOfRaw, hs, Bind.bind, Except.bind, if_true, Except.ok.injEq] at h
      subst h
      refine ⟨rfl, rfl, ?_, ?_⟩
      · show m.bit_offset < 2 ^ 24
        rw [RawMember.bit_offset, hmask, Nat.and_pow_two_sub_one_eq_mod]
        exact Nat.mod_lt _ (by norm_num)
      · show m.bitfield_size < 256
        rw [RawMember.bitfield_size, Nat.shiftRight_eq_div_pow]
        omega
  · intro h
    cases hs : read_str strs m.name_off with
    | error e => simp [memberOfRaw, hs, Bind.bind, Except.bind] at h
    | ok name =>
      simp only [memberOfRaw, hs, Bind.bind, Except.bind, if_false, Except.ok.injEq,
        Bool.false_eq_true] at h
      subst h
      exact ⟨rfl, rfl⟩

/-- Witness for C7 at the raw member `{name_off: 0, ty: 1, offset:
0x03000005}` decoded under `kind_flag = 1`. -/
theorem c7_member_bitfield_split_witness :
    memberOfRaw [] true ⟨0, 1, 0x03000005⟩ = .ok ⟨none, 1, 5, 3⟩ ∧
    ((⟨none, 1, 5, 3⟩ : TyMember).bits_offset = 0x03000005 &&& 0xffffff ∧
     (⟨none, 1, 5, 3⟩ : TyMember).bitfield_size = 0x03000005 >>> 24 ∧
     (⟨none, 1, 5, 3⟩ : TyMember).bits_offset < 2 ^ 24 ∧
     (⟨none, 1, 5, 3⟩ : TyMember).bitfield_size < 256) :=
  ⟨by decide,
   (c7_member_bitfield_split.1 [] ⟨0, 1, 0x03000005⟩ ⟨none, 1, 5, 3⟩ (by decide)).1 (by decide)⟩

/-- Counterexample for **C2**: the claim asserts `read_str` fails with an
`OutOfRange` error whenever `off ≥ len(strs)`.  In fact the source uses
`<[u8]>::get(off..)`, whose `None` outcome is transposed into `Ok(None)`:
at `off = 5 > 3 = len` the result is `Ok(None)`, and at `off = 3 = len`
the empty slice yields `Ok(Some(""))` — no error in either case. -/
theorem c2_read_str_past_end_no_error :
    read_str [65, 66, 0] 5 = .ok none ∧ read_str [65, 66, 0] 3 = .ok (some "") := by
  exact ⟨by decide, by decide⟩

theorem dropWhile_shape {α : Type} (p : α → Bool) (l : List α) :
    l.dropWhile p = [] ∨ ∃ x xs, l.dropWhile p = x :: xs ∧ p x = false := by
  induction l with
  | nil => exact Or.inl rfl
  | cons a as ih =>
    by_cases h : p a
    · simpa [List.dropWhile_cons, h] using ih
    · right
      exact ⟨a, as, by simp [List.dropWhile_cons, h], by simpa using h⟩

/-- **C2** (amended, proved).  `read_str(strs, 0)` returns `None`.  For
`0 < off ≤ len(strs)` it takes the bytes from `off` up to (excluding) the
first NUL — a prefix of the tail that contains no NUL and is terminated
either by the end of the section or by a NUL — and returns them decoded,
failing with `Utf8Error` exactly when they are not valid UTF-8 (at
`off = len` this is the empty string).  For `off > len(strs)` it returns
`Ok(None)`; it never produces an `OutOfRange` error. -/
theorem c2_read_str_spec (strs : List Nat) (off : Nat) :
    read_str strs 0 = .ok none ∧
    (0 < off → off ≤ strs.length →
      ((∃ rest, strs.drop off = (strs.drop off).takeWhile (· ≠ 0) ++ rest ∧
          (rest = [] ∨ ∃ rest2, rest = 0 :: rest2)) ∧
       (∀ x ∈ (strs.drop off).takeWhile (· ≠ 0), x ≠ 0) ∧
       read_str strs off =
         match utf8Decode ((strs.drop off).takeWhile (· ≠ 0)) with
         | some s => .ok (some s)
         | none => .error .Utf8Error)) ∧
    (strs.length < off → read_str strs off = .ok none) := by
  refine ⟨by simp [read_str], ?_, ?_⟩
  · intro h1 h2
    refine ⟨⟨(strs.drop off).dropWhile (· ≠ 0),
      (List.takeWhile_append_dropWhile _ _).symm, ?_⟩, ?_, ?_⟩
    · rcases dropWhile_shape (fun x => decide (x ≠ 0)) (strs.drop off) with h | ⟨x, xs, hx, hpx⟩
      · exact Or.inl h
      · right
        refine ⟨xs, ?_⟩
        have : x = 0 := by simpa using hpx
        rw [hx, this]
    · intro x hx
      have := List.mem_takeWhile_imp hx
      simpa using this
    · rw [read_str, if_neg (by omega), if_pos h2]
  · intro h
    rw [read_str, if_neg (by omega), if_neg (by omega)]

/-- Witness for C2's amended statement at `strs = [7]`, `off = 9`. -/
theorem c2_read_str_spec_witness : read_str [7] 9 = .ok none :=
  (c2_read_str_spec [7] 9).2.2 (by decide)

theorem find?_first {α : Type} (p : α → Bool) :
    ∀ (l : List α) (j : Nat) (e : α), l.get? j = some e → p e = true →
      (∀ k e2, k < j → l.get? k = some e2 → p e2 = false) → l.find? p = some e := by
  intro l
  induction l with
  | nil => intro j e h; simp at h
  | cons a as ih =>
    intro j e hj hpe hk
    cases j with
    | zero =>
      rw [List.get?_cons_zero, Option.some.injEq] at hj
      subst hj
      exact List.find?_cons_of_pos _ hpe
    | succ j2 =>
      have h0 : p a = false := hk 0 a (Nat.succ_pos j2) rfl
      rw [List.find?_cons_of_neg _ (by simp [h0])]
      exact ih j2 e hj hpe (fun k e2 hlt hget => hk (k + 1) e2 (Nat.succ_lt_succ hlt) hget)

/-- **C9** (confirmed).  `EnumDecl::to_tokens` iterates the variants in
declaration order; position `i` becomes a real variant exactly when no
earlier variant carries the same value, and when some earlier variant
does, position `i` is emitted as an associated constant (in the `impl`
block after the declaration, present exactly when such constants exist)
aliasing the *first* variant bearing that value.  On scenario S4,
variants `[(A, 0), (B, 0), (C, 1)]` produce the enum body
`A = 0, C = 1` and the `impl` constant `pub const B: Self = Self::A`. -/
theorem c9_enum_duplicate_values :
    (∀ (values : List TyEnumVal) (i : Nat) (v : TyEnumVal), values.get? i = some v →
      ((∀ j e, j < i → values.get? j = some e → e.val ≠ v.val) →
        enumEntry values i v = some (.variant (enumVariantName i v) v.val)) ∧
      (∀ j e, j < i → values.get? j = some e → e.val = v.val →
        (∀ k e2, k < j → values.get? k = some e2 → e2.val ≠ v.val) →
        enumEntry values i v =
          e.name.map fun en => EnumItem.constant (enumVariantName i v) (escapeKeyword en))) ∧
    enumDecl [⟨some "A", 0⟩, ⟨some "B", 0⟩, ⟨some "C", 1⟩] =
      some ⟨[("A", 0), ("C", 1)], [("B", "A")]⟩ := by
  refine ⟨?_, by decide⟩
  intro values i v _
  constructor
  · intro hnone
    have hfind : (values.take i).find? (fun e => e.val == v.val) = none := by
      rw [List.find?_eq_none]
      intro x hx
      obtain ⟨n, hn⟩ := List.mem_iff_get?.mp hx
      rw [List.get?_take_eq_if] at hn
      split at hn
      · simpa using hnone n x (by omega) hn
      · simp at hn
    rw [enumEntry, hfind]
  · intro j e hj hget hval hfirst
    have hfind : (values.take i).find? (fun e => e.val == v.val) = some e := by
      refine find?_first _ _ j e ?_ (by simp [hval]) ?_
      · rw [List.get?_take_eq_if, if_pos hj]
        exact hget
      · intro k e2 hlt hk
        rw [List.get?_take_eq_if] at hk
        split at hk
        · simpa using hfirst k e2 hlt hk
        · simp at hk
    rw [enumEntry, hfind]

/-- Witness for C9: in the S4 value list, position 1 (`B = 0`) has its
value already taken by position 0 (`A = 0`), so it is emitted as the
associated constant `pub const B: Self = Self::A`. -/
theorem c9_enum_duplicate_values_witness :
    enumEntry [⟨some "A", 0⟩, ⟨some "B", 0⟩, ⟨some "C", 1⟩] 1 ⟨some "B", 0⟩ =
      some (.constant "B" "A") := by
  have h := (c9_enum_duplicate_values.1 [⟨some "A", 0⟩, ⟨some "B", 0⟩, ⟨some "C", 1⟩] 1
    ⟨some "B", 0⟩ (by decide)).2 0 ⟨some "A", 0⟩ (by decide) (by decide) (by decide)
    (fun k e2 hk _ => absurd hk (Nat.not_lt_zero k))
  exact h.trans (by decide)
